import Mathlib

/-!
Verification of the PAYLOAD delivery-tracking application core logic.

The definitions below are a shallow embedding of the TypeScript sources:

* `src/services/storage.ts` (and its localStorage twin embedded in
  `src/types.ts`): pay calculator (`calculateIndividual`, `calculateDaily`),
  user management (`initializeStorage`, `registerUser`), record management
  (`getUserRecords`, `deleteRecord`), and CSV export (`generateCSV`).
* `src/App.tsx`: the history view monthly grouping (`groupedRecords`) and
  the record-entry save handler (`handleSave`).

Modelling conventions:

* JavaScript numbers carrying money are embedded as exact rationals (`ℚ`);
  quantities are integers (`Int`), with `Option Int` for the result of
  `parseInt` (`none` models `NaN`).
* The browser store (localStorage / Supabase) is passed explicitly as a
  list-valued state; `crypto.randomUUID()` and `Date.now()` are passed as
  explicit parameters since they are environment inputs.
* `throw` is modelled with `Except`; functions that mutate the store
  return the resulting store alongside the `Except` result.
* JS string falsiness (`s || fallback`) only triggers on the empty string,
  which the embedding makes explicit.
-/

namespace Payload

/-- `UserRole` enum from `src/types.ts`. -/
inductive UserRole where
  | ADMIN
  | DRIVER
deriving DecidableEq, Repr

/-- `User` interface from `src/types.ts`. -/
structure User where
  id : String
  name : String
  username : String
  passwordHash : String
  role : UserRole
  createdAt : Nat
deriving DecidableEq, Repr

/-- `RecordMode` enum from `src/types.ts`. -/
inductive RecordMode where
  | INDIVIDUAL
  | DAILY
deriving DecidableEq, Repr

/-- `IndividualType` enum from `src/types.ts`. -/
inductive IndividualType where
  | PARCEL
  | COLLECTION
  | DAILY_FLAT
deriving DecidableEq, Repr

/-- The string value of a `RecordMode` member (the enums are string enums). -/
def RecordMode.toStr : RecordMode → String
  | .INDIVIDUAL => "INDIVIDUAL"
  | .DAILY => "DAILY"

/-- The string value of an `IndividualType` member. -/
def IndividualType.toStr : IndividualType → String
  | .PARCEL => "PARCEL"
  | .COLLECTION => "COLLECTION"
  | .DAILY_FLAT => "DAILY_FLAT"

/-- `WorkRecord` interface from `src/types.ts`.  `date` is a `YYYY-MM-DD`
string; `value` is the calculated GBP value; `routeNames` and `isTwoIDs`
are optional fields. -/
structure WorkRecord where
  id : String
  userId : String
  date : String
  mode : RecordMode
  type : IndividualType
  quantity : Int
  value : ℚ
  routeNames : Option String
  isTwoIDs : Option Bool
  photos : List String
  timestamp : Nat
deriving DecidableEq, Repr

/-! ## Pay calculator (`src/services/storage.ts`, `calculateIndividual`
and `calculateDaily`) -/

/-- Result record of `calculateIndividual`. -/
structure IndividualCalc where
  parcelValue : ℚ
  collectionValue : ℚ
  total : ℚ
deriving DecidableEq, Repr

/-- `calculateIndividual` from `src/services/storage.ts` lines 173-177. -/
def calculateIndividual (parcels collections : ℚ) : IndividualCalc :=
  let parcelValue := parcels * 1.00
  let collectionValue := collections * 0.80
  { parcelValue := parcelValue
    collectionValue := collectionValue
    total := parcelValue + collectionValue }

/-- `calculateDaily` from `src/services/storage.ts` lines 179-186. -/
def calculateDaily (isTwoIDs : Bool) (quantity : Int) : ℚ :=
  if !isTwoIDs then 180.00
  else if quantity < 150 then 260.00
  else if quantity ≤ 250 then 300.00
  else 360.00

/-! ## User management (`src/services/storage.ts` / `src/types.ts`) -/

/-- `initializeStorage`: if no user with username `admin` exists, append the
hardcoded admin user.  `newId` stands for `generateUUID()` and `now` for
`Date.now()`; the stored user list is passed and returned explicitly. -/
def initializeStorage (newId : String) (now : Nat) (users : List User) : List User :=
  let adminExists := users.any (fun u => u.username = "admin")
  if adminExists then users
  else
    users ++ [{ id := newId, name := "System Admin", username := "admin",
                passwordHash := "EVRI01", role := UserRole.ADMIN, createdAt := now }]

/-- `registerUser`: throws when the username is already taken (leaving the
store untouched, since the throw happens before any save), otherwise appends
a new DRIVER user and returns it. -/
def registerUser (name username password : String) (newId : String) (now : Nat)
    (users : List User) : Except String User × List User :=
  if users.any (fun u => u.username = username) then
    (Except.error "Usuário já existe.", users)
  else
    let newUser : User :=
      { id := newId, name := name, username := username,
        passwordHash := password, role := UserRole.DRIVER, createdAt := now }
    (Except.ok newUser, users ++ [newUser])

/-! ## Record management -/

/-- `getUserRecords`: filter the stored records to the given owner and sort
by `date` descending (the JS comparator is `b.date.localeCompare(a.date)`;
JS `Array.prototype.sort` is stable, modelled by the stable `mergeSort`). -/
def getUserRecords (userId : String) (records : List WorkRecord) : List WorkRecord :=
  (records.filter (fun r => r.userId = userId)).mergeSort
    (fun a b => b.date ≤ a.date)

/-- `deleteRecord`: keep exactly the records whose id differs from the given
one (`records.filter(r => r.id !== recordId)`). -/
def deleteRecord (recordId : String) (records : List WorkRecord) : List WorkRecord :=
  records.filter (fun r => r.id ≠ recordId)

/-! ## CSV export (`generateCSV`) -/

/-- `Number.prototype.toFixed(2)` on the exact rational value: round to a
whole number of hundredths (half away from zero on the exact value; every
value the app produces is an exact multiple of 1/100, so ties never arise
for them) and print with exactly two decimal digits. -/
def toFixed2 (q : ℚ) : String :=
  let cents : Int := if q < 0 then -⌊-q * 100 + 1 / 2⌋ else ⌊q * 100 + 1 / 2⌋
  let sign := if cents < 0 then "-" else ""
  let n := cents.natAbs
  let frac := n % 100
  sign ++ toString (n / 100) ++ "." ++
    (if frac < 10 then "0" ++ toString frac else toString frac)

/-- The `Rotas` cell: `r.routeNames || '-'`.  Among strings only `""` is
falsy, so the dash stands in for `undefined`, `null` and `""`. -/
def rotasField : Option String → String
  | none => "-"
  | some s => if s = "" then "-" else s

/-- One CSV body row of `generateCSV` (the 7-cell array built for each
record before being joined with commas). -/
def csvRow (r : WorkRecord) : List String :=
  [r.date, r.type.toStr, r.mode.toStr, toString r.quantity,
   toFixed2 r.value, rotasField r.routeNames, r.id]

/-- `generateCSV` from `src/services/storage.ts` lines 190-216, restricted
to the `csvContent` string it builds: the header row and one comma-joined
row per record, joined with newlines.  (The Blob/DOM download of that
string, and the `fileName` used only for the download attribute, are
browser side effects outside the model.) -/
def generateCSV (records : List WorkRecord) : String :=
  let headers := ["Data", "Tipo", "Modo", "Qtd", "Valor", "Rotas", "ID"]
  let rows := records.map csvRow
  String.intercalate "\n"
    (String.intercalate "," headers :: rows.map (String.intercalate ","))

/-! ## Monthly grouping (`src/App.tsx`, `HistoryView.groupedRecords`) -/

/-- `r.date.substring(0, 7)`: the first seven characters of the date, the
`YYYY-MM` prefix.  (Implemented over the character list, which has the same
meaning on these ASCII date strings.) -/
def monthKeyOf (date : String) : String := String.mk (date.data.take 7)

/-- `MonthlyGroup` type from `src/types.ts`. -/
structure MonthlyGroup where
  monthKey : String
  label : String
  total : ℚ
  records : List WorkRecord
deriving DecidableEq, Repr

/-- The `if (!groups[monthKey])` step of the grouping loop: create an empty
group for `k` (with the human-readable label of the record's date) unless
one already exists.  JS object string keys preserve insertion order, so the
key-indexed object is an insertion-ordered association list. -/
def ensureGroup (label : String → String) (gs : List MonthlyGroup)
    (k date : String) : List MonthlyGroup :=
  if gs.any (fun g => g.monthKey = k) then gs
  else gs ++ [{ monthKey := k, label := label date, total := 0, records := [] }]

/-- One iteration of the `records.forEach` loop in
`HistoryView.groupedRecords`: compute the record's `YYYY-MM` key
(`r.date.substring(0, 7)`), ensure its group exists, then push the record
and add its value to the group total.  The month label produced by
`toLocaleString('pt-BR', ...)` is abstracted as the `label` function of the
record's date. -/
def addToGroups (label : String → String) (gs : List MonthlyGroup)
    (r : WorkRecord) : List MonthlyGroup :=
  let k := monthKeyOf r.date
  (ensureGroup label gs k r.date).map (fun g =>
    if g.monthKey = k then
      { g with records := g.records ++ [r], total := g.total + r.value }
    else g)

/-- `HistoryView.groupedRecords` from `src/App.tsx` lines 506-523: fold the
records into key-indexed groups, then sort `Object.values(groups)` by
`monthKey` descending (`b.monthKey.localeCompare(a.monthKey)`). -/
def groupedRecords (label : String → String) (records : List WorkRecord) :
    List MonthlyGroup :=
  (records.foldl (addToGroups label) []).mergeSort
    (fun a b => b.monthKey ≤ a.monthKey)

/-! ## Record-entry save handler (`src/App.tsx`, `CalculatorView.handleSave`) -/

/-- The draft passed to `createRecord`: a `WorkRecord` without the
store-assigned `id` and `timestamp` (`Omit<WorkRecord, 'id' | 'timestamp'>`). -/
structure RecordDraft where
  userId : String
  date : String
  mode : RecordMode
  type : IndividualType
  quantity : Int
  value : ℚ
  routeNames : Option String
  isTwoIDs : Bool
  photos : List String
deriving DecidableEq, Repr

/-- The entry-form state read by `handleSave`.  The numeric text inputs are
embedded as the result of `parseInt`: `none` models `NaN` (empty or
non-numeric input). -/
structure CalcForm where
  date : String
  mode : RecordMode
  parcels : Option Int
  collections : Option Int
  isTwoIDs : Bool
  dailyQty : Option Int
  routeId1 : String
  routeId2 : String
deriving Repr

/-- JS truthiness of a `parseInt` result: `NaN` and `0` are falsy. -/
def truthyNum : Option Int → Bool
  | none => false
  | some n => n ≠ 0

/-- The `pQty > 0` guard on a `parseInt` result: `NaN > 0` is false. -/
def posNum : Option Int → Bool
  | none => false
  | some n => 0 < n

/-- `CalculatorView.handleSave` from `src/App.tsx` lines 278-332, restricted
to the record drafts it hands to `createRecord` (navigation, alerts and the
loading flag are UI side effects outside the model).  An INDIVIDUAL
submission produces one PARCEL draft if the parcel quantity is positive and
one COLLECTION draft if the collection quantity is positive, each valued at
the per-item rate; a DAILY submission produces a single DAILY_FLAT draft
valued by `calculateDaily` at the entered quantity (`parseInt(dailyQty) || 0`,
i.e. `0` when the field is empty), which is the memoised `previewValue`.
The `qty`, `finalRouteNames` and `singleRouteName` constants of the code are
inlined at their use sites. -/
def handleSave (userId : String) (f : CalcForm) (photos : List String) :
    Except String (List RecordDraft) :=
  if f.date = "" then Except.error "Selecione uma data"
  else if f.mode = RecordMode.INDIVIDUAL then
    if ¬ truthyNum f.parcels ∧ ¬ truthyNum f.collections then
      Except.error "Preencha ao menos parcelas ou coletas."
    else
      Except.ok
        ((if posNum f.parcels then
            [{ userId := userId, date := f.date, mode := f.mode,
               type := IndividualType.PARCEL,
               quantity := f.parcels.getD 0,
               value := (f.parcels.getD 0 : ℚ) * 1.00,
               photos := photos,
               routeNames := some f.routeId1,
               isTwoIDs := false }]
          else []) ++
         (if posNum f.collections then
            [{ userId := userId, date := f.date, mode := f.mode,
               type := IndividualType.COLLECTION,
               quantity := f.collections.getD 0,
               value := (f.collections.getD 0 : ℚ) * 0.80,
               photos := photos,
               routeNames := some f.routeId1,
               isTwoIDs := false }]
          else []))
  else
    if f.isTwoIDs ∧ (f.routeId1 = "" ∨ f.routeId2 = "") then
      Except.error "Digite os IDs das duas rotas."
    else
      Except.ok
        [{ userId := userId, date := f.date, mode := f.mode,
           type := IndividualType.DAILY_FLAT,
           quantity := if f.isTwoIDs then f.dailyQty.getD 0 else 1,
           value := calculateDaily f.isTwoIDs (f.dailyQty.getD 0),
           isTwoIDs := f.isTwoIDs,
           routeNames :=
             if (if f.isTwoIDs then f.routeId1 ++ " + " ++ f.routeId2
                 else f.routeId1) ≠ "" then
               some (if f.isTwoIDs then f.routeId1 ++ " + " ++ f.routeId2
                     else f.routeId1)
             else if ¬ f.isTwoIDs ∧ f.routeId1 ≠ "" then some f.routeId1
             else none,
           photos := photos }]

/-! ## Sample data used in the concrete parts of the properties -/

/-- A parcel record dated `2024-03-05`, value 10, owned by `u1`. -/
def recMar05 : WorkRecord :=
  { id := "r1", userId := "u1", date := "2024-03-05", mode := RecordMode.INDIVIDUAL,
    type := IndividualType.PARCEL, quantity := 10, value := 10,
    routeNames := none, isTwoIDs := none, photos := [], timestamp := 0 }

/-- A collection record dated `2024-03-20`, value 5, owned by `u1`. -/
def recMar20 : WorkRecord :=
  { id := "r2", userId := "u1", date := "2024-03-20", mode := RecordMode.INDIVIDUAL,
    type := IndividualType.COLLECTION, quantity := 5, value := 5,
    routeNames := none, isTwoIDs := none, photos := [], timestamp := 1 }

/-- A daily record dated `2024-04-01`, value 7, owned by `u2`. -/
def recApr01 : WorkRecord :=
  { id := "r3", userId := "u2", date := "2024-04-01", mode := RecordMode.DAILY,
    type := IndividualType.DAILY_FLAT, quantity := 1, value := 7,
    routeNames := none, isTwoIDs := none, photos := [], timestamp := 2 }

/-- The record of the CSV example in the specification. -/
def csvSample : WorkRecord :=
  { id := "abc", userId := "u1", date := "2024-03-05", mode := RecordMode.INDIVIDUAL,
    type := IndividualType.PARCEL, quantity := 3, value := 3.00,
    routeNames := none, isTwoIDs := none, photos := [], timestamp := 0 }

/-- A record whose `routeNames` is present but equal to the empty string. -/
def csvEmptyRoute : WorkRecord :=
  { id := "xyz", userId := "u1", date := "2024-05-01", mode := RecordMode.DAILY,
    type := IndividualType.DAILY_FLAT, quantity := 1, value := 180.00,
    routeNames := some "", isTwoIDs := some false, photos := [], timestamp := 0 }

/-- A stored admin user. -/
def sampleAdmin : User :=
  { id := "id0", name := "Root", username := "admin", passwordHash := "x",
    role := UserRole.ADMIN, createdAt := 0 }

/-- A second, distinct user that also carries the username `admin`. -/
def sampleAdmin2 : User :=
  { id := "id1", name := "Root2", username := "admin", passwordHash := "y",
    role := UserRole.ADMIN, createdAt := 1 }

/-- The record-entry form state of the save-handler example: INDIVIDUAL
mode with 3 parcels and 2 collections. -/
def sampleForm : CalcForm :=
  { date := "2024-03-05", mode := RecordMode.INDIVIDUAL, parcels := some 3,
    collections := some 2, isTwoIDs := false, dailyQty := none,
    routeId1 := "R1", routeId2 := "" }

/-- The PARCEL draft `handleSave` produces for `sampleForm`. -/
def sampleParcelDraft : RecordDraft :=
  { userId := "u1", date := "2024-03-05", mode := RecordMode.INDIVIDUAL,
    type := IndividualType.PARCEL, quantity := 3, value := ((3 : Int) : ℚ) * 1.00,
    routeNames := some "R1", isTwoIDs := false, photos := [] }

/-- The COLLECTION draft `handleSave` produces for `sampleForm`. -/
def sampleCollectionDraft : RecordDraft :=
  { userId := "u1", date := "2024-03-05", mode := RecordMode.INDIVIDUAL,
    type := IndividualType.COLLECTION, quantity := 2, value := ((2 : Int) : ℚ) * 0.80,
    routeNames := some "R1", isTwoIDs := false, photos := [] }

/-- Invariant of the grouping loop of `HistoryView.groupedRecords` after the
records `pr` have been processed into the association list `gs`: group keys
are pairwise distinct, each group holds exactly the processed records whose
`YYYY-MM` prefix is its key (in input order), each group total is the sum of
its records' values, and every processed record has a group for its key. -/
def GroupsInv (pr : List WorkRecord) (gs : List MonthlyGroup) : Prop :=
  (gs.map (fun g => g.monthKey)).Nodup ∧
  (∀ g ∈ gs, g.records = pr.filter (fun r => monthKeyOf r.date = g.monthKey)) ∧
  (∀ g ∈ gs, g.total = (g.records.map (fun r => r.value)).sum) ∧
  (∀ r ∈ pr, ∃ g ∈ gs, g.monthKey = monthKeyOf r.date)

/-! ## Helper lemmas -/

/-- Sorting by a string key, descending, yields a pairwise-descending list.
This is the shape of both sorts in the code (`getUserRecords` by `date`,
`groupedRecords` by `monthKey`). -/
theorem mergeSort_descBy_pairwise {α : Type} (key : α → String) (l : List α) :
    (l.mergeSort (fun a b => key b ≤ key a)).Pairwise
      (fun a b => key b ≤ key a) := by
  have h := @List.sorted_mergeSort α (fun a b : α => decide (key b ≤ key a))
    (fun a b c hab hbc => by
      simp only [decide_eq_true_eq] at hab hbc ⊢
      exact le_trans hbc hab)
    (fun a b => by
      simp only [Bool.or_eq_true, decide_eq_true_eq]
      exact le_total (key b) (key a))
    l
  exact h.imp (fun hab => of_decide_eq_true hab)

/-- `toFixed(2)` on the exact value 3.00 prints `3.00`. -/
theorem toFixed2_three : toFixed2 3.00 = "3.00" := by
  have h1 : ¬ ((3.00 : ℚ) < 0) := by norm_num
  have h2 : ⌊(3.00 : ℚ) * 100 + 1 / 2⌋ = (300 : Int) := by norm_num
  unfold toFixed2
  rw [if_neg h1, h2]
  decide

/-- One grouping-loop iteration preserves the grouping invariant. -/
theorem addToGroups_inv (label : String → String) (pr : List WorkRecord)
    (gs : List MonthlyGroup) (r : WorkRecord) (h : GroupsInv pr gs) :
    GroupsInv (pr ++ [r]) (addToGroups label gs r) := by
  obtain ⟨hnd, hrec, htot, hcov⟩ := h
  have step :
      ∀ gs1 : List MonthlyGroup, GroupsInv pr gs1 →
        (∃ g ∈ gs1, g.monthKey = monthKeyOf r.date) →
        GroupsInv (pr ++ [r])
          (gs1.map (fun g =>
            if g.monthKey = monthKeyOf r.date then
              { g with records := g.records ++ [r], total := g.total + r.value }
            else g)) := by
    intro gs1 hinv1 hex1
    obtain ⟨hnd1, hrec1, htot1, hcov1⟩ := hinv1
    have hkey : ∀ g : MonthlyGroup,
        ((fun g : MonthlyGroup =>
          if g.monthKey = monthKeyOf r.date then
            { g with records := g.records ++ [r], total := g.total + r.value }
          else g) g).monthKey = g.monthKey := by
      intro g
      by_cases hk : g.monthKey = monthKeyOf r.date <;> simp [hk]
    refine ⟨?_, ?_, ?_, ?_⟩
    · rw [List.map_map]
      have heq : ((fun g : MonthlyGroup => g.monthKey) ∘ (fun g : MonthlyGroup =>
          if g.monthKey = monthKeyOf r.date then
            { g with records := g.records ++ [r], total := g.total + r.value }
          else g)) = fun g : MonthlyGroup => g.monthKey := by
        funext g
        exact hkey g
      rw [heq]
      exact hnd1
    · intro g2 hg2
      obtain ⟨g, hg, hup⟩ := List.mem_map.mp hg2
      by_cases hk : g.monthKey = monthKeyOf r.date
      · rw [if_pos hk] at hup
        subst hup
        rw [List.filter_append, ← hrec1 g hg]
        simp [hk]
      · rw [if_neg hk] at hup
        subst hup
        rw [List.filter_append, ← hrec1 g hg]
        have : [r].filter (fun r0 => monthKeyOf r0.date = g.monthKey) = [] := by
          simp only [List.filter_eq_nil_iff, List.mem_singleton]
          intro a ha
          subst ha
          simpa using fun h0 => hk h0.symm
        rw [this, List.append_nil]
    · intro g2 hg2
      obtain ⟨g, hg, hup⟩ := List.mem_map.mp hg2
      by_cases hk : g.monthKey = monthKeyOf r.date
      · rw [if_pos hk] at hup
        subst hup
        simp [htot1 g hg]
      · rw [if_neg hk] at hup
        subst hup
        exact htot1 g hg
    · intro r0 hr0
      rcases List.mem_append.mp hr0 with hmem | hmem
      · obtain ⟨g, hg, hk⟩ := hcov1 r0 hmem
        exact ⟨_, List.mem_map_of_mem _ hg, (hkey g).trans hk⟩
      · have hr0r : r0 = r := by simpa using hmem
        subst hr0r
        obtain ⟨g, hg, hk⟩ := hex1
        exact ⟨_, List.mem_map_of_mem _ hg, (hkey g).trans hk⟩
  simp only [addToGroups, ensureGroup]
  by_cases hex : (gs.any (fun g => g.monthKey = monthKeyOf r.date)) = true
  · rw [if_pos hex]
    apply step gs ⟨hnd, hrec, htot, hcov⟩
    obtain ⟨g, hg, hk⟩ := List.any_eq_true.mp hex
    exact ⟨g, hg, of_decide_eq_true hk⟩
  · rw [if_neg hex]
    have hnot : ∀ g ∈ gs, ¬ (g.monthKey = monthKeyOf r.date) := by
      intro g hg hk
      exact hex (List.any_eq_true.mpr ⟨g, hg, decide_eq_true hk⟩)
    have hfilter : pr.filter (fun r0 => monthKeyOf r0.date = monthKeyOf r.date) = [] := by
      rw [List.filter_eq_nil_iff]
      intro a ha
      simp only [decide_eq_true_eq]
      intro hk
      obtain ⟨g0, hg0, hg0k⟩ := hcov a ha
      exact hnot g0 hg0 (hg0k.trans hk)
    apply step
    · refine ⟨?_, ?_, ?_, ?_⟩
      · rw [List.map_append]
        rw [List.nodup_append]
        refine ⟨hnd, by simp, ?_⟩
        intro k hk hk2
        have hkk : k = monthKeyOf r.date := by simpa using hk2
        subst hkk
        obtain ⟨g, hg, hge⟩ := List.mem_map.mp hk
        exact hnot g hg hge
      · intro g hg
        rcases List.mem_append.mp hg with hmem | hmem
        · exact hrec g hmem
        · have hgeq : g =
              { monthKey := monthKeyOf r.date, label := label r.date,
                total := 0, records := [] } := by simpa using hmem
          subst hgeq
          exact hfilter.symm
      · intro g hg
        rcases List.mem_append.mp hg with hmem | hmem
        · exact htot g hmem
        · have hgeq : g =
              { monthKey := monthKeyOf r.date, label := label r.date,
                total := 0, records := [] } := by simpa using hmem
          subst hgeq
          simp
      · intro r0 hr0
        obtain ⟨g, hg, hk⟩ := hcov r0 hr0
        exact ⟨g, List.mem_append_left _ hg, hk⟩
    · exact ⟨⟨monthKeyOf r.date, label r.date, 0, []⟩,
        List.mem_append_right _ (by simp), rfl⟩

/-- The grouping invariant holds after folding any record list into any
well-formed accumulator. -/
theorem foldl_addToGroups_inv (label : String → String) (rs : List WorkRecord) :
    ∀ (pr : List WorkRecord) (gs : List MonthlyGroup), GroupsInv pr gs →
      GroupsInv (pr ++ rs) (rs.foldl (addToGroups label) gs) := by
  induction rs with
  | nil =>
    intro pr gs h
    simpa using h
  | cons r rs ih =>
    intro pr gs h
    have h2 := ih (pr ++ [r]) (addToGroups label gs r) (addToGroups_inv label pr gs r h)
    simpa [List.append_assoc] using h2

/-! ## Claim theorems -/

/-- C1: `calculateDaily(false, q)` is 180.00 for every quantity; with
`isTwoIDs` true it is 260.00 for `q < 150`, 300.00 for `150 ≤ q ≤ 250`
(both boundaries in the middle tier) and 360.00 for `q > 250`; in
particular at 149, 150, 250 and 251. -/
theorem calculateDaily_correct :
    (∀ q : Int, calculateDaily false q = 180.00) ∧
    (∀ q : Int, q < 150 → calculateDaily true q = 260.00) ∧
    (∀ q : Int, 150 ≤ q → q ≤ 250 → calculateDaily true q = 300.00) ∧
    (∀ q : Int, 250 < q → calculateDaily true q = 360.00) ∧
    calculateDaily true 149 = 260.00 ∧ calculateDaily true 150 = 300.00 ∧
    calculateDaily true 250 = 300.00 ∧ calculateDaily true 251 = 360.00 := by
  refine ⟨fun q => rfl, fun q h => ?_, fun q h1 h2 => ?_, fun q h => ?_,
    rfl, rfl, rfl, rfl⟩
  · simp [calculateDaily, h]
  · have h1a : ¬ (q < 150) := by omega
    simp [calculateDaily, h1a, h2]
  · have h1a : ¬ (q < 150) := by omega
    have h2a : ¬ (q ≤ 250) := by omega
    simp [calculateDaily, h1a, h2a]

/-- Witness for C1: one concrete quantity in each two-ID tier. -/
theorem calculateDaily_correct_witness :
    calculateDaily true 100 = 260.00 ∧ calculateDaily true 200 = 300.00 ∧
    calculateDaily true 300 = 360.00 :=
  ⟨calculateDaily_correct.2.1 100 (by decide),
   calculateDaily_correct.2.2.1 200 (by decide) (by decide),
   calculateDaily_correct.2.2.2.1 300 (by decide)⟩

/-- C2: `calculateIndividual(p, c)` returns `parcelValue = p * 1.00`,
`collectionValue = c * 0.80` and `total` their sum, for all non-negative
integers; it is a pure total function. -/
theorem calculateIndividual_correct (p c : ℕ) :
    (calculateIndividual p c).parcelValue = (p : ℚ) * 1.00 ∧
    (calculateIndividual p c).collectionValue = (c : ℚ) * 0.80 ∧
    (calculateIndividual p c).total =
      (calculateIndividual p c).parcelValue +
        (calculateIndividual p c).collectionValue ∧
    (calculateIndividual p c).total = (p : ℚ) * 1.00 + (c : ℚ) * 0.80 :=
  ⟨rfl, rfl, rfl, rfl⟩

/-- C5: `registerUser` on an already-present username fails with the
duplicate-username error and leaves the store unchanged; on a fresh
username it appends and returns a new DRIVER user. -/
theorem registerUser_correct (name username password newId : String)
    (now : Nat) (users : List User) :
    ((∃ u ∈ users, u.username = username) →
      registerUser name username password newId now users =
        (Except.error "Usuário já existe.", users)) ∧
    ((∀ u ∈ users, u.username ≠ username) →
      registerUser name username password newId now users =
        (Except.ok (User.mk newId name username password UserRole.DRIVER now),
         users ++ [User.mk newId name username password UserRole.DRIVER now]) ∧
      (User.mk newId name username password UserRole.DRIVER now).role =
        UserRole.DRIVER) := by
  constructor
  · intro h
    obtain ⟨u, hu, he⟩ := h
    have hany : users.any (fun u => u.username = username) = true :=
      List.any_eq_true.mpr ⟨u, hu, decide_eq_true he⟩
    simp [registerUser, hany]
  · intro h
    have hany : users.any (fun u => u.username = username) = false := by
      rw [List.any_eq_false]
      intro u hu
      simpa using h u hu
    simp [registerUser, hany]

/-- Witness for C5: a duplicate `admin` registration fails and leaves the
single-user store unchanged; registration into the empty store succeeds
with a DRIVER user. -/
theorem registerUser_correct_witness :
    registerUser "Bob" "admin" "pw" "id9" 7 [sampleAdmin] =
      (Except.error "Usuário já existe.", [sampleAdmin]) ∧
    registerUser "Alice" "alice" "pw" "id1" 5 [] =
      (Except.ok (User.mk "id1" "Alice" "alice" "pw" UserRole.DRIVER 5),
       [User.mk "id1" "Alice" "alice" "pw" UserRole.DRIVER 5]) :=
  ⟨(registerUser_correct "Bob" "admin" "pw" "id9" 7 [sampleAdmin]).1
      ⟨sampleAdmin, by simp, rfl⟩,
   ((registerUser_correct "Alice" "alice" "pw" "id1" 5 []).2 (by simp)).1⟩

/-- C6 counterexample: from a starting state that already holds two users
with username `admin`, running `initializeStorage` twice leaves two admin
users, not exactly one, so the claim fails as stated for every starting
state. -/
theorem initializeStorage_twice_counterexample :
    ((initializeStorage "n2" 2 (initializeStorage "n1" 1
        [sampleAdmin, sampleAdmin2])).filter
      (fun u => u.username = "admin")).length ≠ 1 := by
  decide

/-- C6 (amended): `initializeStorage` creates an admin user only when none
exists, and running it twice from any starting state holding at most one
user with username `admin` results in exactly one such user. -/
theorem initializeStorage_twice (newId1 newId2 : String) (t1 t2 : Nat)
    (users : List User)
    (h : (users.filter (fun u => u.username = "admin")).length ≤ 1) :
    ((∃ u ∈ users, u.username = "admin") →
      initializeStorage newId1 t1 users = users) ∧
    ((initializeStorage newId2 t2 (initializeStorage newId1 t1 users)).filter
        (fun u => u.username = "admin")).length = 1 := by
  by_cases hex : users.any (fun u => u.username = "admin") = true
  · have h1 : ∀ nid t, initializeStorage nid t users = users := by
      intro nid t
      simp [initializeStorage, hex]
    obtain ⟨u, hu, hue⟩ := List.any_eq_true.mp hex
    have hmem : u ∈ users.filter (fun u => u.username = "admin") :=
      List.mem_filter.mpr ⟨hu, hue⟩
    have hpos : 0 < (users.filter (fun u => u.username = "admin")).length :=
      List.length_pos_of_mem hmem
    refine ⟨fun _ => h1 newId1 t1, ?_⟩
    rw [h1 newId1 t1, h1 newId2 t2]
    omega
  · have hexf : users.any (fun u => u.username = "admin") = false := by
      simpa using hex
    have hnot : ∀ u ∈ users, ¬ (u.username = "admin") := by
      intro u hu hue
      exact hex (List.any_eq_true.mpr ⟨u, hu, decide_eq_true hue⟩)
    constructor
    · intro hcontra
      obtain ⟨u, hu, hue⟩ := hcontra
      exact absurd hue (hnot u hu)
    · have h1 : initializeStorage newId1 t1 users =
          users ++ [User.mk newId1 "System Admin" "admin" "EVRI01"
            UserRole.ADMIN t1] := by
        simp [initializeStorage, hexf]
      have hany2 : (users ++ [User.mk newId1 "System Admin" "admin" "EVRI01"
          UserRole.ADMIN t1]).any (fun u => u.username = "admin") = true :=
        List.any_eq_true.mpr
          ⟨User.mk newId1 "System Admin" "admin" "EVRI01" UserRole.ADMIN t1,
           List.mem_append_right _ (by simp), by simp⟩
      have h2 : initializeStorage newId2 t2 (users ++
          [User.mk newId1 "System Admin" "admin" "EVRI01" UserRole.ADMIN t1]) =
          users ++ [User.mk newId1 "System Admin" "admin" "EVRI01"
            UserRole.ADMIN t1] := by
        simp [initializeStorage, hany2]
      rw [h1, h2, List.filter_append]
      have hemp : users.filter (fun u => u.username = "admin") = [] :=
        List.filter_eq_nil_iff.mpr (fun u hu => by simpa using hnot u hu)
      rw [hemp]
      simp

/-- Witness for C6 (amended): from the empty store, running the seeding
step twice yields exactly one admin user. -/
theorem initializeStorage_twice_witness :
    ((initializeStorage "n2" 2 (initializeStorage "n1" 1 [])).filter
        (fun u => u.username = "admin")).length = 1 :=
  (initializeStorage_twice "n1" "n2" 1 2 [] (by decide)).2

/-- C7: `deleteRecord` on an absent id leaves the record store unchanged
(and does not fail, the embedding being a total function); when exactly one
record carries the id, exactly that record is removed.  The function never
inspects `userId`, so no ownership check is enforced at this layer. -/
theorem deleteRecord_correct (recordId : String) (records : List WorkRecord) :
    ((∀ r ∈ records, r.id ≠ recordId) → deleteRecord recordId records = records) ∧
    (∀ (pre post : List WorkRecord) (r : WorkRecord),
      records = pre ++ r :: post → r.id = recordId →
      (∀ x ∈ pre, x.id ≠ recordId) → (∀ x ∈ post, x.id ≠ recordId) →
      deleteRecord recordId records = pre ++ post) := by
  constructor
  · intro h
    unfold deleteRecord
    rw [List.filter_eq_self]
    intro a ha
    simpa using h a ha
  · intro pre post r hsplit hid hpre hpost
    subst hsplit
    unfold deleteRecord
    rw [List.filter_append]
    have h1 : pre.filter (fun r0 => r0.id ≠ recordId) = pre :=
      List.filter_eq_self.mpr (fun a ha => by simpa using hpre a ha)
    have h2 : post.filter (fun r0 => r0.id ≠ recordId) = post :=
      List.filter_eq_self.mpr (fun a ha => by simpa using hpost a ha)
    have h3 : (r :: post).filter (fun r0 => r0.id ≠ recordId) = post := by
      rw [List.filter_cons]
      rw [show (decide (r.id ≠ recordId)) = false by simp [hid]]
      simpa using h2
    rw [h1, h3]

/-- Witness for C7: deleting id `r2` from a three-record store removes
exactly the record with that id. -/
theorem deleteRecord_correct_witness :
    deleteRecord "r2" [recMar05, recMar20, recApr01] = [recMar05, recApr01] :=
  (deleteRecord_correct "r2" [recMar05, recMar20, recApr01]).2
    [recMar05] [recApr01] recMar20 rfl rfl (by decide) (by decide)

/-- C8: `getUserRecords(userId)` returns exactly the stored records owned
by `userId` (all of them and no others, as a permutation of the ownership
filter), ordered by `date` descending. -/
theorem getUserRecords_correct (userId : String) (records : List WorkRecord) :
    (∀ r, r ∈ getUserRecords userId records ↔ r ∈ records ∧ r.userId = userId) ∧
    (getUserRecords userId records).Perm
      (records.filter (fun r => r.userId = userId)) ∧
    (getUserRecords userId records).Pairwise (fun a b => b.date ≤ a.date) := by
  refine ⟨?_, ?_, ?_⟩
  · intro r
    unfold getUserRecords
    rw [List.mem_mergeSort, List.mem_filter]
    simp
  · unfold getUserRecords
    exact List.mergeSort_perm _ _
  · unfold getUserRecords
    exact mergeSort_descBy_pairwise (fun r : WorkRecord => r.date) _

/-- Witness for C8: a record owned by `u1` is returned by the query for
`u1` on a concrete store. -/
theorem getUserRecords_correct_witness :
    recMar05 ∈ getUserRecords "u1" [recMar05, recApr01, recMar20] :=
  ((getUserRecords_correct "u1" [recMar05, recApr01, recMar20]).1 recMar05).mpr
    ⟨by simp, rfl⟩

/-- C3: the monthly grouping partitions a record list by the `YYYY-MM`
prefix of `date`: each group holds exactly the records with its key (so
every record lands in exactly one group, keys being pairwise distinct),
each group total is the sum of its records' values, and groups are sorted
by month key descending; concretely, records dated 2024-03-05 and
2024-03-20 share one group totalling the sum of their values while a
2024-04-01 record gets a distinct group sorted before it. -/
theorem groupedRecords_correct :
    (∀ (label : String → String) (records : List WorkRecord),
      (∀ g ∈ groupedRecords label records,
        g.records = records.filter (fun r => monthKeyOf r.date = g.monthKey)) ∧
      (∀ r ∈ records, ∃ g ∈ groupedRecords label records, r ∈ g.records) ∧
      (∀ g1 ∈ groupedRecords label records,
        ∀ g2 ∈ groupedRecords label records, g1.monthKey = g2.monthKey → g1 = g2) ∧
      (∀ g ∈ groupedRecords label records,
        g.total = (g.records.map (fun r => r.value)).sum) ∧
      (groupedRecords label records).Pairwise
        (fun g1 g2 => g2.monthKey ≤ g1.monthKey)) ∧
    (∀ label : String → String,
      groupedRecords label [recMar05, recMar20, recApr01] =
        [MonthlyGroup.mk "2024-04" (label "2024-04-01") recApr01.value [recApr01],
         MonthlyGroup.mk "2024-03" (label "2024-03-05")
           (recMar05.value + recMar20.value) [recMar05, recMar20]]) := by
  constructor
  · intro label records
    have hinv : GroupsInv records (records.foldl (addToGroups label) []) := by
      have h0 : GroupsInv [] ([] : List MonthlyGroup) :=
        ⟨by simp, by simp, by simp, by simp⟩
      simpa using foldl_addToGroups_inv label records [] [] h0
    obtain ⟨hnd, hrec, htot, hcov⟩ := hinv
    have hmem : ∀ g : MonthlyGroup, g ∈ groupedRecords label records ↔
        g ∈ records.foldl (addToGroups label) [] := by
      intro g
      unfold groupedRecords
      exact List.mem_mergeSort
    refine ⟨?_, ?_, ?_, ?_, ?_⟩
    · intro g hg
      exact hrec g ((hmem g).mp hg)
    · intro r hr
      obtain ⟨g, hg, hk⟩ := hcov r hr
      refine ⟨g, (hmem g).mpr hg, ?_⟩
      rw [hrec g hg]
      refine List.mem_filter.mpr ⟨hr, ?_⟩
      simp [hk]
    · intro g1 hg1 g2 hg2 hkeq
      exact List.inj_on_of_nodup_map hnd ((hmem g1).mp hg1) ((hmem g2).mp hg2) hkeq
    · intro g hg
      exact htot g ((hmem g).mp hg)
    · unfold groupedRecords
      exact mergeSort_descBy_pairwise (fun g : MonthlyGroup => g.monthKey) _
  · intro label
    have h : [recMar05, recMar20, recApr01].foldl (addToGroups label) [] =
        [MonthlyGroup.mk "2024-03" (label "2024-03-05") (0 + 10 + 5)
           [recMar05, recMar20],
         MonthlyGroup.mk "2024-04" (label "2024-04-01") (0 + 7) [recApr01]] := rfl
    unfold groupedRecords
    rw [h]
    simp +decide [List.mergeSort, List.merge, recMar05, recMar20, recApr01]
    try norm_num

/-- Witness for C3: the March group of the concrete grouping satisfies the
group-total property of the theorem. -/
theorem groupedRecords_correct_witness :
    (MonthlyGroup.mk "2024-03" "" (recMar05.value + recMar20.value)
        [recMar05, recMar20]).total =
      ([recMar05, recMar20].map (fun r => r.value)).sum :=
  (groupedRecords_correct.1 (fun _ => "") [recMar05, recMar20, recApr01]).2.2.2.1
    (MonthlyGroup.mk "2024-03" "" (recMar05.value + recMar20.value)
      [recMar05, recMar20])
    (by rw [groupedRecords_correct.2 (fun _ => "")]; simp)

/-- C4: the CSV export is exactly the header `Data,Tipo,Modo,Qtd,Valor,Rotas,ID`
followed by one comma-joined row per record in input order, with `Valor`
printed to two decimals and `Rotas` defaulting to a dash; on the concrete
sample record the body row is `2024-03-05,PARCEL,INDIVIDUAL,3,3.00,-,abc`. -/
theorem generateCSV_correct :
    (∀ records : List WorkRecord, generateCSV records =
      String.intercalate "\n"
        ("Data,Tipo,Modo,Qtd,Valor,Rotas,ID" ::
          records.map (fun r =>
            String.intercalate ","
              [r.date, r.type.toStr, r.mode.toStr, toString r.quantity,
               toFixed2 r.value, rotasField r.routeNames, r.id]))) ∧
    generateCSV [csvSample] =
      "Data,Tipo,Modo,Qtd,Valor,Rotas,ID\n2024-03-05,PARCEL,INDIVIDUAL,3,3.00,-,abc" := by
  constructor
  · intro records
    simp only [generateCSV, List.map_map]
    rfl
  · have h1 : generateCSV [csvSample] =
        String.intercalate "\n"
          [String.intercalate ","
            ["Data", "Tipo", "Modo", "Qtd", "Valor", "Rotas", "ID"],
           String.intercalate ","
            ["2024-03-05", "PARCEL", "INDIVIDUAL", "3", toFixed2 3.00, "-",
             "abc"]] := rfl
    rw [h1, toFixed2_three]
    decide

/-- C9: every draft the record-entry save handler passes to `createRecord`
has its value derived from the Pay Calculator: PARCEL drafts are valued at
`quantity * 1.00`, COLLECTION drafts at `quantity * 0.80`, DAILY_FLAT
drafts at `calculateDaily(isTwoIDs, entered quantity)`; an INDIVIDUAL
submission yields one draft per positive entered quantity (up to two). -/
theorem handleSave_values (userId : String) (f : CalcForm)
    (photos : List String) (ds : List RecordDraft)
    (h : handleSave userId f photos = Except.ok ds) :
    (∀ d ∈ ds,
      (d.type = IndividualType.PARCEL → d.value = (d.quantity : ℚ) * 1.00) ∧
      (d.type = IndividualType.COLLECTION → d.value = (d.quantity : ℚ) * 0.80) ∧
      (d.type = IndividualType.DAILY_FLAT →
        d.value = calculateDaily f.isTwoIDs (f.dailyQty.getD 0) ∧
        d.isTwoIDs = f.isTwoIDs)) ∧
    (f.mode = RecordMode.INDIVIDUAL →
      ds.length = (if posNum f.parcels then 1 else 0) +
        (if posNum f.collections then 1 else 0)) := by
  unfold handleSave at h
  by_cases hdate : f.date = ""
  · rw [if_pos hdate] at h
    exact (Except.noConfusion h)
  · rw [if_neg hdate] at h
    by_cases hmode : f.mode = RecordMode.INDIVIDUAL
    · rw [if_pos hmode] at h
      by_cases hboth : ¬ truthyNum f.parcels = true ∧ ¬ truthyNum f.collections = true
      · rw [if_pos hboth] at h
        exact (Except.noConfusion h)
      · rw [if_neg hboth] at h
        have hds := Except.ok.inj h
        subst hds
        constructor
        · intro d hd
          rcases List.mem_append.mp hd with hdL | hdR
          · by_cases hp : posNum f.parcels = true
            · rw [if_pos hp] at hdL
              have hdd := List.mem_singleton.mp hdL
              subst hdd
              refine ⟨fun _ => rfl, fun hc => ?_, fun hc => ?_⟩ <;> simp at hc
            · rw [if_neg hp] at hdL
              exact absurd hdL (List.not_mem_nil d)
          · by_cases hcq : posNum f.collections = true
            · rw [if_pos hcq] at hdR
              have hdd := List.mem_singleton.mp hdR
              subst hdd
              refine ⟨fun hc => ?_, fun _ => rfl, fun hc => ?_⟩ <;> simp at hc
            · rw [if_neg hcq] at hdR
              exact absurd hdR (List.not_mem_nil d)
        · intro _
          by_cases hp : posNum f.parcels = true <;>
            by_cases hcq : posNum f.collections = true <;>
              simp [hp, hcq]
    · rw [if_neg hmode] at h
      by_cases hroutes : f.isTwoIDs = true ∧ (f.routeId1 = "" ∨ f.routeId2 = "")
      · rw [if_pos hroutes] at h
        exact (Except.noConfusion h)
      · rw [if_neg hroutes] at h
        have hds := Except.ok.inj h
        subst hds
        constructor
        · intro d hd
          have hdd := List.mem_singleton.mp hd
          subst hdd
          refine ⟨fun hc => ?_, fun hc => ?_, fun _ => ⟨rfl, rfl⟩⟩ <;> simp at hc
        · intro hmode2
          exact absurd hmode2 hmode

/-- Witness for C9: on a concrete INDIVIDUAL submission with 3 parcels and
2 collections, both produced drafts carry calculator-derived values. -/
theorem handleSave_values_witness :
    sampleParcelDraft.value = (sampleParcelDraft.quantity : ℚ) * 1.00 ∧
    sampleCollectionDraft.value = (sampleCollectionDraft.quantity : ℚ) * 0.80 :=
  ⟨((handleSave_values "u1" sampleForm []
        [sampleParcelDraft, sampleCollectionDraft] rfl).1
      sampleParcelDraft (by simp)).1 rfl,
   ((handleSave_values "u1" sampleForm []
        [sampleParcelDraft, sampleCollectionDraft] rfl).1
      sampleCollectionDraft (by simp)).2.1 rfl⟩

/-- C10: the Rotas cell of a CSV row is a dash for every falsy
`routeNames`, including the present-but-empty string. -/
theorem csvRow_emptyRoute (r : WorkRecord) (h : r.routeNames = some "") :
    csvRow r = [r.date, r.type.toStr, r.mode.toStr, toString r.quantity,
      toFixed2 r.value, "-", r.id] := by
  unfold csvRow
  rw [h]
  rfl

/-- Witness for C10: the row of a concrete record with empty `routeNames`
carries a dash in the Rotas column. -/
theorem csvRow_emptyRoute_witness :
    csvRow csvEmptyRoute = ["2024-05-01", "DAILY_FLAT", "DAILY", "1",
      toFixed2 180.00, "-", "xyz"] := by
  rw [csvRow_emptyRoute csvEmptyRoute rfl]
  rfl

end Payload
